import Mathlib

/-!
Shallow embedding of `src/webgui/database.py` (HiAni-DL job store).

The store keeps two tables, `jobs` and `episodes`, in SQLite.  Every column a
statement can write is modelled as a `SqlValue` (SQLite's dynamic typing:
NULL, INTEGER or TEXT), rows are structures of such values, and the store is
the pair of row lists together with the AUTOINCREMENT counters.  Timestamps
(`datetime.utcnow().isoformat()`) are opaque strings passed in as `now`.

Note on deletion: `init_db` never executes `PRAGMA foreign_keys=ON`, and the
per-operation connections do not either, so the `ON DELETE CASCADE` clause of
the `episodes` schema is inert under SQLite's default setting;
`delete_all_jobs_except_running`'s single `DELETE FROM jobs ...` therefore
removes job rows only, which is how it is modelled here.
-/

/-- A SQLite storage value: NULL, INTEGER or TEXT. -/
inductive SqlValue where
  | null : SqlValue
  | int : Int → SqlValue
  | text : String → SqlValue
deriving DecidableEq, Repr

/-- Render a Python optional string as as a SQL parameter. -/
def optText : Option String → SqlValue
  | none => SqlValue.null
  | some s => SqlValue.text s

/-- A row of the `jobs` table (schema of `init_db`). -/
structure JobRow where
  id : Nat
  url : SqlValue
  profile : SqlValue
  extra_args : SqlValue
  status : SqlValue
  stage : SqlValue
  progress_percent : SqlValue
  progress_text : SqlValue
  created_at : SqlValue
  started_at : SqlValue
  finished_at : SqlValue
  error_message : SqlValue
  log_file : SqlValue
  pid : SqlValue
deriving DecidableEq, Repr

/-- A row of the `episodes` table (schema of `init_db` plus the migrated
`stage_data` and `log_file` columns). -/
structure EpisodeRow where
  id : Nat
  job_id : Nat
  episode_number : Int
  title : String
  status : SqlValue
  progress_percent : SqlValue
  stage_data : SqlValue
  error_message : SqlValue
  started_at : SqlValue
  finished_at : SqlValue
  log_file : SqlValue
deriving DecidableEq, Repr

/-- The persistent state of the database: both tables plus the AUTOINCREMENT
counters for the two `id` columns. -/
structure Store where
  jobs : List JobRow
  episodes : List EpisodeRow
  nextJobId : Nat
  nextEpisodeId : Nat
deriving DecidableEq, Repr

/-- Source `Database.VALID_COLUMNS`: the allow-list for generic job updates. -/
def VALID_COLUMNS : List String :=
  ["url", "profile", "extra_args", "status", "stage",
   "progress_percent", "progress_text", "created_at",
   "started_at", "finished_at", "error_message", "log_file", "pid"]

/-- One `UPDATE jobs SET key = value` clause for an allow-listed column. -/
def setJobField (j : JobRow) (key : String) (v : SqlValue) : JobRow :=
  if key = "url" then { j with url := v }
  else if key = "profile" then { j with profile := v }
  else if key = "extra_args" then { j with extra_args := v }
  else if key = "status" then { j with status := v }
  else if key = "stage" then { j with stage := v }
  else if key = "progress_percent" then { j with progress_percent := v }
  else if key = "progress_text" then { j with progress_text := v }
  else if key = "created_at" then { j with created_at := v }
  else if key = "started_at" then { j with started_at := v }
  else if key = "finished_at" then { j with finished_at := v }
  else if key = "error_message" then { j with error_message := v }
  else if key = "log_file" then { j with log_file := v }
  else if key = "pid" then { j with pid := v }
  else j

/-- Apply the `SET` clauses of a job update, left to right. -/
def applyJobUpdates (j : JobRow) (fields : List (String × SqlValue)) : JobRow :=
  fields.foldl (fun j kv => setJobField j kv.1 kv.2) j

/-- Source `Database.update_job(job_id, **kwargs)`: empty kwargs is an early no-op
return; any key outside `VALID_COLUMNS` raises `ValueError` before the
statement is built; otherwise one `UPDATE jobs SET ... WHERE id = ?`. -/
def updateJob (s : Store) (jobId : Nat) (fields : List (String × SqlValue)) :
    Except String Store :=
  if fields.isEmpty then Except.ok s
  else if fields.any (fun kv => !(VALID_COLUMNS.contains kv.1)) then
    Except.error "Invalid column names"
  else
    Except.ok { s with
      jobs := s.jobs.map (fun j =>
        if j.id = jobId then applyJobUpdates j fields else j) }

/-- Python truthiness of an optional string (`if stage:` in
`update_progress`): `None` and `""` are falsy. -/
def pyTruthyStr : Option String → Bool
  | none => false
  | some s => !(s = "")

/-- Source `Database.update_progress(job_id, percent, stage?, text?)`. -/
def updateProgress (s : Store) (jobId : Nat) (percent : Int)
    (stage : Option String) (text : Option String) : Except String Store :=
  let updates := [("progress_percent", SqlValue.int percent)]
  let updates := if pyTruthyStr stage then updates ++ [("stage", optText stage)] else updates
  let updates := if pyTruthyStr text then updates ++ [("progress_text", optText text)] else updates
  updateJob s jobId updates

/-- Source `Database.create_job(url, profile, extra_args)`: inserts a row with
status `'queued'`, `created_at = now`, defaulted remaining columns; returns
the new store and `cursor.lastrowid`. -/
def createJob (s : Store) (url : String) (profile : Option String)
    (extraArgs : Option String) (now : String) : Store × Nat :=
  ({ s with
      jobs := s.jobs ++ [{
        id := s.nextJobId
        url := SqlValue.text url
        profile := optText profile
        extra_args := optText extraArgs
        status := SqlValue.text "queued"
        stage := SqlValue.null
        progress_percent := SqlValue.int 0
        progress_text := SqlValue.null
        created_at := SqlValue.text now
        started_at := SqlValue.null
        finished_at := SqlValue.null
        error_message := SqlValue.null
        log_file := SqlValue.null
        pid := SqlValue.null }]
      nextJobId := s.nextJobId + 1 },
   s.nextJobId)

/-- Source `Database.get_job(job_id)`: `SELECT * FROM jobs WHERE id = ?`. -/
def getJob (s : Store) (jobId : Nat) : Option JobRow :=
  s.jobs.find? (fun j => j.id = jobId)

/-- Source `Database.claim_job(job_id)`: the single conditional
`UPDATE jobs SET status='running', started_at=now WHERE id=? AND
status='queued'`; returns `rowcount > 0`. -/
def claimJob (s : Store) (jobId : Nat) (now : String) : Store × Bool :=
  ({ s with
      jobs := s.jobs.map (fun j =>
        if j.id = jobId ∧ j.status = SqlValue.text "queued" then
          { j with status := SqlValue.text "running", started_at := SqlValue.text now }
        else j) },
   s.jobs.any (fun j => j.id = jobId ∧ j.status = SqlValue.text "queued"))

/-- A run of consecutive `claim_job` calls on the same id (one `now` per
call), with no intervening writes; returns the final store and the list of
returned booleans in call order. -/
def claimSeq (s : Store) (jobId : Nat) : List String → Store × List Bool
  | [] => (s, [])
  | now :: rest =>
    let r := claimJob s jobId now
    let r2 := claimSeq r.1 jobId rest
    (r2.1, r.2 :: r2.2)

/-- Source `Database.start_job(job_id, pid, log_file)`: records process metadata and
stage INIT with `STAGE_PROGRESS[INIT] = 5`. -/
def startJob (s : Store) (jobId : Nat) (pid : Int) (logFile : String) :
    Except String Store :=
  updateJob s jobId
    [("pid", SqlValue.int pid), ("log_file", SqlValue.text logFile),
     ("stage", SqlValue.text "init"), ("progress_percent", SqlValue.int 5)]

/-- Source `Database.cancel_job_episodes(job_id)`: `UPDATE episodes SET
status='failed', error_message='Job was cancelled', finished_at=now WHERE
job_id=? AND status NOT IN ('complete','failed')`. -/
def cancelJobEpisodes (s : Store) (jobId : Nat) (now : String) : Store :=
  { s with
    episodes := s.episodes.map (fun e =>
      if e.job_id = jobId ∧ e.status ≠ SqlValue.text "complete"
          ∧ e.status ≠ SqlValue.text "failed" then
        { e with
          status := SqlValue.text "failed"
          error_message := SqlValue.text "Job was cancelled"
          finished_at := SqlValue.text now }
      else e) }

/-- Source `Database.finish_job(job_id, success, error_message)`: one generic update
passing `status`, `finished_at`, `error_message`, and — on both branches —
`progress_percent` and `stage` (`100`/`'done'` when successful, `None` when
not); on failure it then runs `cancel_job_episodes`. -/
def finishJob (s : Store) (jobId : Nat) (success : Bool)
    (errorMessage : Option String) (now : String) : Except String Store :=
  match updateJob s jobId
    [("status", SqlValue.text (if success then "success" else "failed")),
     ("finished_at", SqlValue.text now),
     ("error_message", optText errorMessage),
     ("progress_percent", if success then SqlValue.int 100 else SqlValue.null),
     ("stage", if success then SqlValue.text "done" else SqlValue.null)] with
  | Except.error e => Except.error e
  | Except.ok s1 => Except.ok (if success then s1 else cancelJobEpisodes s1 jobId now)

/-- Source `Database.cancel_job(job_id)`: unconditional status/finished_at update,
then the episode cascade. -/
def cancelJob (s : Store) (jobId : Nat) (now : String) : Except String Store :=
  match updateJob s jobId
    [("status", SqlValue.text "canceled"), ("finished_at", SqlValue.text now)] with
  | Except.error e => Except.error e
  | Except.ok s1 => Except.ok (cancelJobEpisodes s1 jobId now)

/-- Source `Database.delete_all_jobs_except_running()`: counts running jobs, then
`DELETE FROM jobs WHERE status != 'running'` (episodes untouched — see the
header note on the inert cascade); returns `(deleted_count, skipped_count)`. -/
def deleteAllJobsExceptRunning (s : Store) : Store × Nat × Nat :=
  let skipped := (s.jobs.filter (fun j => j.status = SqlValue.text "running")).length
  let deleted := (s.jobs.filter (fun j => !(j.status = SqlValue.text "running"))).length
  ({ s with jobs := s.jobs.filter (fun j => j.status = SqlValue.text "running") },
   deleted, skipped)

/-!
### JSON values and serialization

`update_episode` passes `stage_data` through `json.dumps` before storage, and
the spec's round-trip property reads it back through JSON decoding.  The
Python `json` module is standard-library code outside this repository.
-/

mutual
/-- Modelled from the spec: a structured (JSON) value, the payload type of
`stage_data` — the Python `json` module's data model is not part of src/.
Object entries keep insertion order, as `json.dumps` serializes them. -/
inductive Jv where
  | jnull : Jv
  | jbool : Bool → Jv
  | jint : Int → Jv
  | jstr : List Char → Jv
  | jarr : JArr → Jv
  | jobj : JObj → Jv

/-- A JSON array: a list of values (mutual with `Jv`). -/
inductive JArr where
  | nil : JArr
  | cons : Jv → JArr → JArr

/-- A JSON object: an ordered list of key/value entries (mutual with `Jv`). -/
inductive JObj where
  | nil : JObj
  | cons : List Char → Jv → JObj → JObj
end

deriving instance DecidableEq for Jv
deriving instance DecidableEq for JArr
deriving instance DecidableEq for JObj

/-- Modelled from the spec: `json.dumps` escaping of one string character
(the two characters that collide with the string syntax get a backslash). -/
def escChar (c : Char) : List Char :=
  if c = '"' ∨ c = '\\' then ['\\', c] else [c]

/-- Modelled from the spec: `json.dumps` escaping of a whole string body. -/
def escString : List Char → List Char
  | [] => []
  | c :: cs => escChar c ++ escString cs

/-- Decimal digit character of `d < 10`. -/
def digitCh (d : Nat) : Char := Char.ofNat (48 + d)

/-- Decimal digits of a natural number, most significant first. -/
def natChars (n : Nat) : List Char :=
  if h : n < 10 then [digitCh n]
  else natChars (n / 10) ++ [digitCh (n % 10)]
decreasing_by exact Nat.div_lt_self (by omega) (by omega)

/-- Decimal rendering of an integer (`json.dumps` of a Python `int`). -/
def intChars (n : Int) : List Char :=
  if n < 0 then '-' :: natChars (-n).toNat else natChars n.toNat

mutual
/-- Modelled from the spec: `json.dumps` with its default separators
`", "` and `": "` (control-character escaping is elided; `escString`
covers the quote and the backslash). -/
def jdump : Jv → List Char
  | Jv.jnull => ['n', 'u', 'l', 'l']
  | Jv.jbool true => ['t', 'r', 'u', 'e']
  | Jv.jbool false => ['f', 'a', 'l', 's', 'e']
  | Jv.jint n => intChars n
  | Jv.jstr s => '"' :: (escString s ++ ['"'])
  | Jv.jarr xs => '[' :: (jdumpArr xs ++ [']'])
  | Jv.jobj kvs => '\x7b' :: (jdumpObj kvs ++ ['\x7d'])

/-- Array elements joined by `", "`. -/
def jdumpArr : JArr → List Char
  | JArr.nil => []
  | JArr.cons v JArr.nil => jdump v
  | JArr.cons v (JArr.cons w tl) =>
    jdump v ++ (',' :: ' ' :: jdumpArr (JArr.cons w tl))

/-- Object entries `"key": value` joined by `", "`. -/
def jdumpObj : JObj → List Char
  | JObj.nil => []
  | JObj.cons k v JObj.nil =>
    '"' :: (escString k ++ ('"' :: ':' :: ' ' :: jdump v))
  | JObj.cons k v (JObj.cons k2 v2 tl) =>
    ('"' :: (escString k ++ ('"' :: ':' :: ' ' :: jdump v)))
      ++ (',' :: ' ' :: jdumpObj (JObj.cons k2 v2 tl))
end

/-- Render `json.dumps` output as a `String`. -/
def jdumpStr (v : Jv) : String := String.mk (jdump v)

/-- One `UPDATE episodes SET key = value` clause for a column named by
`update_episode`. -/
def setEpisodeField (e : EpisodeRow) (key : String) (v : SqlValue) : EpisodeRow :=
  if key = "status" then { e with status := v }
  else if key = "progress_percent" then { e with progress_percent := v }
  else if key = "stage_data" then { e with stage_data := v }
  else if key = "error_message" then { e with error_message := v }
  else if key = "started_at" then { e with started_at := v }
  else if key = "finished_at" then { e with finished_at := v }
  else if key = "log_file" then { e with log_file := v }
  else e

/-- Apply the `SET` clauses of an episode update, left to right (a later
clause for the same column wins, as the last assignment to a Python dict key
does). -/
def applyEpisodeUpdates (e : EpisodeRow) (fields : List (String × SqlValue)) :
    EpisodeRow :=
  fields.foldl (fun e kv => setEpisodeField e kv.1 kv.2) e

/-- Python truthiness of `updates.get(key)`: absent, `None`, `0` and `""`
are falsy. -/
def pyTruthyVal : Option SqlValue → Bool
  | none => false
  | some SqlValue.null => false
  | some (SqlValue.int i) => !(i = 0)
  | some (SqlValue.text t) => !(t = "")

/-- Source `Database.create_episode(job_id, episode_number, title)`: inserts with
status `'pending'`, `progress_percent = 0`, defaulted remaining columns. -/
def createEpisode (s : Store) (jobId : Nat) (episodeNumber : Int)
    (title : String) : Store × Nat :=
  ({ s with
      episodes := s.episodes ++ [{
        id := s.nextEpisodeId
        job_id := jobId
        episode_number := episodeNumber
        title := title
        status := SqlValue.text "pending"
        progress_percent := SqlValue.int 0
        stage_data := SqlValue.null
        error_message := SqlValue.null
        started_at := SqlValue.null
        finished_at := SqlValue.null
        log_file := SqlValue.null }]
      nextEpisodeId := s.nextEpisodeId + 1 },
   s.nextEpisodeId)

/-- Source `Database.get_episode(episode_id)`: `SELECT * FROM episodes WHERE id=?`. -/
def getEpisode (s : Store) (episodeId : Nat) : Option EpisodeRow :=
  s.episodes.find? (fun e => e.id = episodeId)

/-- The `updates` dict `Database.update_episode` builds: status side effects
first (note that the started_at guard reads `updates.get("started_at")`,
i.e. the dict under construction, never the stored row), then the explicit
arguments. -/
def episodeUpdates (status : Option String) (progressPercent : Option Int)
    (errorMessage : Option String) (stageData : Option Jv)
    (logFile : Option String) (now : String) : List (String × SqlValue) :=
  let updates : List (String × SqlValue) :=
    match status with
    | none => []
    | some st =>
      let u0 := [("status", SqlValue.text st)]
      if st = "complete" then
        u0 ++ [("finished_at", SqlValue.text now), ("progress_percent", SqlValue.int 100)]
      else if st = "get_stream" ∨ st = "download_video" ∨ st = "merge_video"
          ∨ st = "download_subtitles" then
        if pyTruthyVal (u0.lookup "started_at") then u0
        else u0 ++ [("started_at", SqlValue.text now)]
      else if st = "failed" then
        u0 ++ [("finished_at", SqlValue.text now)]
      else u0
  let updates := match progressPercent with
    | none => updates
    | some p => updates ++ [("progress_percent", SqlValue.int p)]
  let updates := match errorMessage with
    | none => updates
    | some m => updates ++ [("error_message", SqlValue.text m)]
  let updates := match stageData with
    | none => updates
    | some d => updates ++ [("stage_data", SqlValue.text (jdumpStr d))]
  let updates := match logFile with
    | none => updates
    | some f => updates ++ [("log_file", SqlValue.text f)]
  updates

/-- Source `Database.update_episode(episode_id, status, progress_percent,
error_message, stage_data, log_file)`: builds the `updates` dict and applies
it in one `UPDATE episodes ... WHERE id = ?`, or returns untouched when the
dict stays empty. -/
def updateEpisode (s : Store) (episodeId : Nat) (status : Option String)
    (progressPercent : Option Int) (errorMessage : Option String)
    (stageData : Option Jv) (logFile : Option String) (now : String) : Store :=
  if (episodeUpdates status progressPercent errorMessage stageData logFile now).isEmpty
  then s
  else { s with
    episodes := s.episodes.map (fun e =>
      if e.id = episodeId then
        applyEpisodeUpdates e
          (episodeUpdates status progressPercent errorMessage stageData logFile now)
      else e) }

/-!
### JSON decoding

Modelled from the spec: the round-trip property reads `stage_data` back as a
"decoded" structured map; the decoder (`json.loads`) lives in the Python
standard library, outside src/.  `jloads` below is a recursive-descent parser
for exactly the text `jdump` emits.
-/

/-- Consume an exact literal from the front of the input. -/
def dropLit : List Char → List Char → Option (List Char)
  | [], cs => some cs
  | _ :: _, [] => none
  | l :: ls, c :: cs => if c = l then dropLit ls cs else none

/-- Parse a string body (everything after the opening quote) up to its
closing quote, undoing `escChar`. -/
def parseStr : List Char → Option (List Char × List Char)
  | [] => none
  | c :: rest =>
    if c = '\\' then
      match rest with
      | [] => none
      | d :: rest2 =>
        if d = '"' ∨ d = '\\' then
          (parseStr rest2).map (fun p => (d :: p.1, p.2))
        else none
    else if c = '"' then some ([], rest)
    else (parseStr rest).map (fun p => (c :: p.1, p.2))

/-- Split the longest run of decimal digits off the front of the input. -/
def takeDigits : List Char → List Char × List Char
  | [] => ([], [])
  | c :: rest =>
    if c.isDigit then
      let p := takeDigits rest
      (c :: p.1, p.2)
    else ([], c :: rest)

/-- Value of a big-endian run of decimal digit characters. -/
def digitsVal (ds : List Char) : Nat :=
  ds.foldl (fun acc c => acc * 10 + (c.toNat - 48)) 0

/-- Parse a nonempty run of decimal digits as a natural number. -/
def parseNat (cs : List Char) : Option (Nat × List Char) :=
  let p := takeDigits cs
  if p.1.isEmpty then none else some (digitsVal p.1, p.2)

mutual
/-- Parse one JSON value off the front of the input (fuel bounds the
nesting). -/
def parseVal : Nat → List Char → Option (Jv × List Char)
  | 0, _ => none
  | Nat.succ fuel, cs =>
    match cs with
    | [] => none
    | c :: rest =>
      if c = 'n' then (dropLit ['u', 'l', 'l'] rest).map (fun r => (Jv.jnull, r))
      else if c = 't' then (dropLit ['r', 'u', 'e'] rest).map (fun r => (Jv.jbool true, r))
      else if c = 'f' then (dropLit ['a', 'l', 's', 'e'] rest).map (fun r => (Jv.jbool false, r))
      else if c = '"' then (parseStr rest).map (fun p => (Jv.jstr p.1, p.2))
      else if c = '[' then
        match rest with
        | [] => none
        | d :: r2 =>
          if d = ']' then some (Jv.jarr JArr.nil, r2)
          else (parseElems fuel (d :: r2)).map (fun p => (Jv.jarr p.1, p.2))
      else if c = '\x7b' then
        match rest with
        | [] => none
        | d :: r2 =>
          if d = '\x7d' then some (Jv.jobj JObj.nil, r2)
          else (parseEntries fuel (d :: r2)).map (fun p => (Jv.jobj p.1, p.2))
      else if c = '-' then
        (parseNat rest).map (fun p => (Jv.jint (-(p.1 : Int)), p.2))
      else if c.isDigit then
        (parseNat (c :: rest)).map (fun p => (Jv.jint (p.1 : Int), p.2))
      else none

/-- Parse the elements of a nonempty array, consuming the closing `]`. -/
def parseElems : Nat → List Char → Option (JArr × List Char)
  | 0, _ => none
  | Nat.succ fuel, cs =>
    match parseVal fuel cs with
    | none => none
    | some (v, r) =>
      match r with
      | [] => none
      | d :: r2 =>
        if d = ']' then some (JArr.cons v JArr.nil, r2)
        else if d = ',' then
          match r2 with
          | [] => none
          | e :: r3 =>
            if e = ' ' then
              (parseElems fuel r3).map (fun p => (JArr.cons v p.1, p.2))
            else none
        else none

/-- Parse the entries of a nonempty object, consuming the closing brace. -/
def parseEntries : Nat → List Char → Option (JObj × List Char)
  | 0, _ => none
  | Nat.succ fuel, cs =>
    match cs with
    | [] => none
    | c :: rest =>
      if c = '"' then
        match parseStr rest with
        | none => none
        | some (k, r) =>
          match r with
          | [] => none
          | d :: r2 =>
            if d = ':' then
              match r2 with
              | [] => none
              | e :: r3 =>
                if e = ' ' then
                  match parseVal fuel r3 with
                  | none => none
                  | some (v, r4) =>
                    match r4 with
                    | [] => none
                    | f :: r5 =>
                      if f = '\x7d' then some (JObj.cons k v JObj.nil, r5)
                      else if f = ',' then
                        match r5 with
                        | [] => none
                        | g :: r6 =>
                          if g = ' ' then
                            (parseEntries fuel r6).map
                              (fun p => (JObj.cons k v p.1, p.2))
                          else none
                      else none
                else none
            else none
      else none
end

/-- Modelled from the spec: `json.loads` on the store's serialized text —
parse one value and demand the input is exhausted. -/
def jloads (t : String) : Option Jv :=
  match parseVal (t.length + 1) t.data with
  | some (v, []) => some v
  | _ => none

/-- Decode a stored `stage_data` column: JSON text decodes, anything else
(including NULL) does not. -/
def sqlDecodeJson : SqlValue → Option Jv
  | SqlValue.text t => jloads t
  | _ => none

/-- Input does not start with a decimal digit (what follows a serialized
number in any `jdump` output). -/
def noDig : List Char → Prop
  | [] => True
  | c :: _ => c.isDigit = false

mutual
/-- Node-count measure of a JSON value, bounding the parser fuel it needs. -/
def jsize : Jv → Nat
  | Jv.jnull => 1
  | Jv.jbool _ => 1
  | Jv.jint _ => 1
  | Jv.jstr _ => 1
  | Jv.jarr xs => jsizeA xs + 1
  | Jv.jobj kvs => jsizeO kvs + 1

/-- Measure of array elements. -/
def jsizeA : JArr → Nat
  | JArr.nil => 0
  | JArr.cons v tl => jsize v + jsizeA tl + 1

/-- Measure of object entries. -/
def jsizeO : JObj → Nat
  | JObj.nil => 0
  | JObj.cons _ v tl => jsize v + jsizeO tl + 1
end

/-!
### Example fixtures

Small concrete rows and stores used to instantiate the theorems.
-/

/-- A job row with the given id and status and defaulted remaining columns. -/
def mkJob (id : Nat) (status : String) : JobRow :=
  { id := id
    url := SqlValue.text "http://x"
    profile := SqlValue.null
    extra_args := SqlValue.null
    status := SqlValue.text status
    stage := SqlValue.null
    progress_percent := SqlValue.int 0
    progress_text := SqlValue.null
    created_at := SqlValue.text "T0"
    started_at := SqlValue.null
    finished_at := SqlValue.null
    error_message := SqlValue.null
    log_file := SqlValue.null
    pid := SqlValue.null }

/-- An episode row with the given id, job id and status and defaulted
remaining columns. -/
def mkEpisode (id : Nat) (jobId : Nat) (status : String) : EpisodeRow :=
  { id := id
    job_id := jobId
    episode_number := 1
    title := "ep"
    status := SqlValue.text status
    progress_percent := SqlValue.int 0
    stage_data := SqlValue.null
    error_message := SqlValue.null
    started_at := SqlValue.null
    finished_at := SqlValue.null
    log_file := SqlValue.null }

/-- A store with the given rows and fresh AUTOINCREMENT counters. -/
def mkStore (jobs : List JobRow) (episodes : List EpisodeRow) : Store :=
  { jobs := jobs
    episodes := episodes
    nextJobId := (jobs.map JobRow.id).foldl max 0 + 1
    nextEpisodeId := (episodes.map EpisodeRow.id).foldl max 0 + 1 }

/-- One queued job, no episodes. -/
def exQueued : Store := mkStore [mkJob 1 "queued"] []

/-- One successful job (terminal), no episodes. -/
def exSuccess : Store := mkStore [mkJob 1 "success"] []

/-- A running job mid-flight: progress 50, stage `'download'`. -/
def exMidFlight : Store :=
  mkStore [{ mkJob 1 "running" with
             progress_percent := SqlValue.int 50
             stage := SqlValue.text "download" }] []

/-- A running job with one complete and one in-flight episode. -/
def exTwoEpisodes : Store :=
  mkStore [mkJob 1 "running"]
    [mkEpisode 1 1 "complete", mkEpisode 2 1 "download_video"]

/-- An episode that already entered active work at `"T1"`. -/
def exStarted : Store :=
  mkStore [mkJob 1 "running"]
    [{ mkEpisode 1 1 "get_stream" with started_at := SqlValue.text "T1" }]

/-- One running and one queued job, one episode under each. -/
def exPurge : Store :=
  mkStore [mkJob 1 "running", mkJob 2 "queued"]
    [mkEpisode 1 1 "pending", mkEpisode 2 2 "pending"]

/-- An episode whose `job_id` names no existing job (no foreign-key check
stops `create_episode` from inserting it, nor the purge from stranding it). -/
def exOrphan : Store := mkStore [] [mkEpisode 1 1 "pending"]

/-- The spec's round-trip example, the map `\x7b"a": 1\x7d`. -/
def exMapA : Jv := Jv.jobj (JObj.cons ['a'] (Jv.jint 1) JObj.nil)

/-- A store whose job is already terminal and whose episodes are all
complete or failed. -/
def exDone : Store :=
  mkStore [mkJob 1 "failed"] [mkEpisode 1 1 "complete", mkEpisode 2 1 "failed"]

/-- The job rows of an operation that may raise (empty on the raise). -/
def exceptJobs : Except String Store → List JobRow
  | Except.ok s => s.jobs
  | Except.error _ => []

/-- The episode rows of an operation that may raise (empty on the raise). -/
def exceptEpisodes : Except String Store → List EpisodeRow
  | Except.ok s => s.episodes
  | Except.error _ => []

/-- AUTOINCREMENT invariant of the `episodes` table: every stored id is
below the next id to be handed out. -/
def freshEpisodeIds (s : Store) : Prop :=
  ∀ e ∈ s.episodes, e.id < s.nextEpisodeId

instance (s : Store) : Decidable (freshEpisodeIds s) := by
  unfold freshEpisodeIds; infer_instance

/-!
### Helper lemmas

Generic facts about the `map (fun a => if p a then f a else a)` shape every
SQL `UPDATE ... WHERE` statement takes in this embedding.
-/

theorem map_ite_id {α : Type} (p : α → Prop) [DecidablePred p] (f : α → α)
    (l : List α) (h : ∀ a ∈ l, ¬ p a) :
    (l.map fun a => if p a then f a else a) = l := by
  induction l with
  | nil => rfl
  | cons a t ih =>
    have ha : ¬ p a := h a (List.mem_cons_self a t)
    simp only [List.map_cons, if_neg ha, List.cons.injEq, true_and]
    exact ih (fun b hb => h b (List.mem_cons_of_mem a hb))

theorem mem_map_ite_pos {α : Type} (p : α → Prop) [DecidablePred p] (f : α → α)
    (l : List α) (a : α) (ha : a ∈ l) (hp : p a) :
    f a ∈ (l.map fun a => if p a then f a else a) := by
  have h := List.mem_map_of_mem (fun a => if p a then f a else a) ha
  simpa [if_pos hp] using h

theorem mem_map_ite_neg {α : Type} (p : α → Prop) [DecidablePred p] (f : α → α)
    (l : List α) (a : α) (ha : a ∈ l) (hp : ¬ p a) :
    a ∈ (l.map fun a => if p a then f a else a) := by
  have h := List.mem_map_of_mem (fun a => if p a then f a else a) ha
  simpa [if_neg hp] using h

theorem mem_map_ite_elim {α : Type} (p : α → Prop) [DecidablePred p] (f : α → α)
    (l : List α) (b : α) (hb : b ∈ (l.map fun a => if p a then f a else a)) :
    ∃ a ∈ l, (p a ∧ b = f a) ∨ (¬ p a ∧ b = a) := by
  obtain ⟨a, ha, rfl⟩ := List.mem_map.mp hb
  by_cases hp : p a
  · exact ⟨a, ha, Or.inl ⟨hp, if_pos hp⟩⟩
  · exact ⟨a, ha, Or.inr ⟨hp, if_neg hp⟩⟩

/-- After a `claim_job`, no row with this id is still `'queued'`: the
conditional update rewrote every such row. -/
theorem claimJob_post (s : Store) (jobId : Nat) (now : String) :
    ∀ j ∈ (claimJob s jobId now).1.jobs,
      ¬ (j.id = jobId ∧ j.status = SqlValue.text "queued") := by
  intro j hj
  simp only [claimJob] at hj
  obtain ⟨a, _, h⟩ := mem_map_ite_elim _ _ _ _ hj
  rcases h with ⟨_, rfl⟩ | ⟨hp, rfl⟩
  · intro hc
    exact absurd hc.2 (by simp)
  · exact hp

/-- A `claim_job` that matches nothing returns the store untouched. -/
theorem claimJob_no_match (s : Store) (jobId : Nat) (now : String)
    (h : ∀ j ∈ s.jobs, ¬ (j.id = jobId ∧ j.status = SqlValue.text "queued")) :
    (claimJob s jobId now).1 = s := by
  have h2 : (s.jobs.map fun j =>
      if j.id = jobId ∧ j.status = SqlValue.text "queued" then
        { j with status := SqlValue.text "running", started_at := SqlValue.text now }
      else j) = s.jobs :=
    map_ite_id (fun j : JobRow => j.id = jobId ∧ j.status = SqlValue.text "queued")
      (fun j : JobRow =>
        { j with status := SqlValue.text "running",
                 started_at := SqlValue.text now }) s.jobs h
  simp only [claimJob]
  rw [h2]

/-- A run of `claim_job` calls on a store with no matching queued row: every
call returns false and the store never changes. -/
theorem claimSeq_all_false (s : Store) (jobId : Nat) (nows : List String)
    (h : ∀ j ∈ s.jobs, ¬ (j.id = jobId ∧ j.status = SqlValue.text "queued")) :
    claimSeq s jobId nows = (s, nows.map fun _ => false) := by
  induction nows with
  | nil => rfl
  | cons now rest ih =>
    have hfalse : (claimJob s jobId now).2 = false := by
      simp only [claimJob]
      apply List.any_eq_false.mpr
      intro j hj
      simpa using h j hj
    have hstore : (claimJob s jobId now).1 = s := claimJob_no_match s jobId now h
    simp only [claimSeq, hstore, hfalse, ih, List.map_cons]

/-!
### C1 — atomic claim
-/

/-- C1: `claim_job(id)` returns true iff a job with that id is `'queued'`
at the call, in which case that row becomes `'running'` with
`started_at = now`; otherwise it returns false and the store is unchanged
(rows that do not match are carried over verbatim).  Consequently, in any
run of consecutive claims on an initially queued job with no intervening
writes, exactly the first call returns true. -/
theorem C1_claim_job_spec (s : Store) (jobId : Nat) (now : String) :
    ((claimJob s jobId now).2 = true ↔
      ∃ j ∈ s.jobs, j.id = jobId ∧ j.status = SqlValue.text "queued")
    ∧ ((claimJob s jobId now).2 = false → (claimJob s jobId now).1 = s)
    ∧ (∀ j ∈ s.jobs, j.id = jobId → j.status = SqlValue.text "queued" →
        ({ j with status := SqlValue.text "running",
                  started_at := SqlValue.text now } : JobRow)
          ∈ (claimJob s jobId now).1.jobs)
    ∧ (∀ j ∈ s.jobs, ¬ (j.id = jobId ∧ j.status = SqlValue.text "queued") →
        j ∈ (claimJob s jobId now).1.jobs)
    ∧ (∀ (now0 : String) (rest : List String),
        (∃ j ∈ s.jobs, j.id = jobId ∧ j.status = SqlValue.text "queued") →
        (claimSeq s jobId (now0 :: rest)).2 = true :: rest.map (fun _ => false)) := by
  refine ⟨?_, ?_, ?_, ?_, ?_⟩
  · simp [claimJob, List.any_eq_true]
  · intro hfalse
    apply claimJob_no_match
    intro j hj hc
    have : (claimJob s jobId now).2 = true := by
      simp only [claimJob]
      exact List.any_eq_true.mpr ⟨j, hj, by simpa using hc⟩
    rw [this] at hfalse
    exact Bool.noConfusion hfalse
  · intro j hj hid hst
    simp only [claimJob]
    exact mem_map_ite_pos
      (fun j : JobRow => j.id = jobId ∧ j.status = SqlValue.text "queued")
      (fun j : JobRow =>
        { j with status := SqlValue.text "running",
                 started_at := SqlValue.text now }) s.jobs j hj ⟨hid, hst⟩
  · intro j hj hnc
    simp only [claimJob]
    exact mem_map_ite_neg
      (fun j : JobRow => j.id = jobId ∧ j.status = SqlValue.text "queued")
      (fun j : JobRow =>
        { j with status := SqlValue.text "running",
                 started_at := SqlValue.text now }) s.jobs j hj hnc
  · intro now0 rest hex
    have hwin : (claimJob s jobId now0).2 = true := by
      simp only [claimJob]
      obtain ⟨j, hj, hc⟩ := hex
      exact List.any_eq_true.mpr ⟨j, hj, by simpa using hc⟩
    have hrest := claimSeq_all_false (claimJob s jobId now0).1 jobId rest
      (claimJob_post s jobId now0)
    simp only [claimSeq, hwin, hrest]

/-- C1 witness: on a store with one queued job, the first claim wins and two
further claims both lose. -/
theorem C1_claim_job_spec_witness :
    (claimJob exQueued 1 "T1").2 = true
    ∧ (claimSeq exQueued 1 ["T1", "T2", "T3"]).2 = [true, false, false] := by
  have h := C1_claim_job_spec exQueued 1 "T1"
  have hex : ∃ j ∈ exQueued.jobs, j.id = 1 ∧ j.status = SqlValue.text "queued" :=
    ⟨mkJob 1 "queued", by decide, by decide, by decide⟩
  exact ⟨h.1.mpr hex, by simpa using h.2.2.2.2 "T1" ["T2", "T3"] hex⟩

/-!
### C9 — allow-list validation and the empty update
-/

/-- C9: the generic job update is a no-op returning no error on an empty
field map, and any field name outside `VALID_COLUMNS` makes it raise (the
`Except.error` return carries no store: nothing was written). -/
theorem C9_update_job_validation (s : Store) (jobId : Nat)
    (fields : List (String × SqlValue)) :
    updateJob s jobId [] = Except.ok s
    ∧ ((∃ kv ∈ fields, ¬ VALID_COLUMNS.contains kv.1) →
        updateJob s jobId fields = Except.error "Invalid column names") := by
  constructor
  · rfl
  · rintro ⟨kv, hkv, hinv⟩
    have hne : fields.isEmpty = false := by
      cases fields with
      | nil => exact absurd hkv (List.not_mem_nil kv)
      | cons a t => rfl
    have hany : fields.any (fun kv => !(VALID_COLUMNS.contains kv.1)) = true :=
      List.any_eq_true.mpr ⟨kv, hkv, by simpa using hinv⟩
    simp only [updateJob, hne, hany, Bool.false_eq_true, if_false, if_true]

/-- C9 witness: the empty update and a `"bogus_field"` update on the
one-queued-job store. -/
theorem C9_update_job_validation_witness :
    updateJob exQueued 1 [] = Except.ok exQueued
    ∧ updateJob exQueued 1 [("bogus_field", SqlValue.int 1)]
        = Except.error "Invalid column names" :=
  ⟨(C9_update_job_validation exQueued 1 []).1,
   (C9_update_job_validation exQueued 1 [("bogus_field", SqlValue.int 1)]).2
     ⟨("bogus_field", SqlValue.int 1), by decide, by decide⟩⟩

/-!
### C2 — cascade on termination
-/

/-- After the cascade, every episode of the job is complete or failed. -/
theorem cancelJobEpisodes_post (s : Store) (jobId : Nat) (now : String) :
    ∀ e ∈ (cancelJobEpisodes s jobId now).episodes, e.job_id = jobId →
      e.status = SqlValue.text "complete" ∨ e.status = SqlValue.text "failed" := by
  intro e he hid
  simp only [cancelJobEpisodes] at he
  obtain ⟨a, _, h⟩ := mem_map_ite_elim _ _ _ _ he
  rcases h with ⟨_, rfl⟩ | ⟨hp, rfl⟩
  · exact Or.inr rfl
  · rcases not_and_or.mp hp with h1 | h2
    · exact absurd hid h1
    · rcases not_and_or.mp h2 with h3 | h4
      · exact Or.inl (not_not.mp h3)
      · exact Or.inr (not_not.mp h4)

/-- A cascade that matches no active episode of the job is a no-op. -/
theorem cancelJobEpisodes_no_active (s : Store) (jobId : Nat) (now : String)
    (h : ∀ e ∈ s.episodes, e.job_id = jobId →
      e.status = SqlValue.text "complete" ∨ e.status = SqlValue.text "failed") :
    cancelJobEpisodes s jobId now = s := by
  have h2 : (s.episodes.map fun e =>
      if e.job_id = jobId ∧ e.status ≠ SqlValue.text "complete"
          ∧ e.status ≠ SqlValue.text "failed" then
        { e with status := SqlValue.text "failed"
                 error_message := SqlValue.text "Job was cancelled"
                 finished_at := SqlValue.text now }
      else e) = s.episodes :=
    map_ite_id
      (fun e : EpisodeRow => e.job_id = jobId ∧ e.status ≠ SqlValue.text "complete"
        ∧ e.status ≠ SqlValue.text "failed")
      (fun e : EpisodeRow =>
        { e with status := SqlValue.text "failed"
                 error_message := SqlValue.text "Job was cancelled"
                 finished_at := SqlValue.text now }) s.episodes
      (by
        intro e he hc
        rcases h e he hc.1 with h1 | h1
        · exact hc.2.1 h1
        · exact hc.2.2 h1)
  simp only [cancelJobEpisodes]
  rw [h2]

/-- C2: `finish(id, success=false, ...)` and `cancel(id)` leave every episode
of the job complete or failed; each episode that was still active is
rewritten to failed with `error_message = "Job was cancelled"` and
`finished_at = now`, episodes already complete or failed are carried over
verbatim, and re-running the cascade on a job with no remaining active
episode changes nothing. -/
theorem C2_termination_cascade (s : Store) (jobId : Nat) (msg : Option String)
    (now : String) :
    (∀ e ∈ s.episodes, e.job_id = jobId →
        e.status ≠ SqlValue.text "complete" → e.status ≠ SqlValue.text "failed" →
        ({ e with status := SqlValue.text "failed"
                  error_message := SqlValue.text "Job was cancelled"
                  finished_at := SqlValue.text now } : EpisodeRow)
          ∈ (cancelJobEpisodes s jobId now).episodes)
    ∧ (∀ e ∈ s.episodes,
        e.status = SqlValue.text "complete" ∨ e.status = SqlValue.text "failed" →
        e ∈ (cancelJobEpisodes s jobId now).episodes)
    ∧ (∀ s2, finishJob s jobId false msg now = Except.ok s2 →
        ∀ e ∈ s2.episodes, e.job_id = jobId →
          e.status = SqlValue.text "complete" ∨ e.status = SqlValue.text "failed")
    ∧ (∀ s2, cancelJob s jobId now = Except.ok s2 →
        ∀ e ∈ s2.episodes, e.job_id = jobId →
          e.status = SqlValue.text "complete" ∨ e.status = SqlValue.text "failed")
    ∧ ((∀ e ∈ s.episodes, e.job_id = jobId →
          e.status = SqlValue.text "complete" ∨ e.status = SqlValue.text "failed") →
        cancelJobEpisodes s jobId now = s) := by
  refine ⟨?_, ?_, ?_, ?_, cancelJobEpisodes_no_active s jobId now⟩
  · intro e he hid hc hf
    simp only [cancelJobEpisodes]
    exact mem_map_ite_pos
      (fun e : EpisodeRow => e.job_id = jobId ∧ e.status ≠ SqlValue.text "complete"
        ∧ e.status ≠ SqlValue.text "failed")
      (fun e : EpisodeRow =>
        { e with status := SqlValue.text "failed"
                 error_message := SqlValue.text "Job was cancelled"
                 finished_at := SqlValue.text now }) s.episodes e he ⟨hid, hc, hf⟩
  · intro e he hterm
    simp only [cancelJobEpisodes]
    refine mem_map_ite_neg _ _ s.episodes e he ?_
    rintro ⟨_, hc, hf⟩
    rcases hterm with h1 | h1
    · exact hc h1
    · exact hf h1
  · intro s2 hs2
    have heq : finishJob s jobId false msg now =
        Except.ok (cancelJobEpisodes
          { s with jobs := s.jobs.map (fun j =>
              if j.id = jobId then
                applyJobUpdates j
                  [("status", SqlValue.text "failed"),
                   ("finished_at", SqlValue.text now),
                   ("error_message", optText msg),
                   ("progress_percent", SqlValue.null),
                   ("stage", SqlValue.null)]
              else j) } jobId now) := rfl
    rw [heq] at hs2
    cases hs2
    exact cancelJobEpisodes_post _ jobId now
  · intro s2 hs2
    have heq : cancelJob s jobId now =
        Except.ok (cancelJobEpisodes
          { s with jobs := s.jobs.map (fun j =>
              if j.id = jobId then
                applyJobUpdates j
                  [("status", SqlValue.text "canceled"),
                   ("finished_at", SqlValue.text now)]
              else j) } jobId now) := rfl
    rw [heq] at hs2
    cases hs2
    exact cancelJobEpisodes_post _ jobId now

/-- C2 witness: on a running job with one complete and one in-flight episode
the cascade fails the in-flight one and keeps the complete one, and on a
store with no active episode it is the identity. -/
theorem C2_termination_cascade_witness :
    (({ mkEpisode 2 1 "download_video" with
        status := SqlValue.text "failed"
        error_message := SqlValue.text "Job was cancelled"
        finished_at := SqlValue.text "T2" } : EpisodeRow)
      ∈ (cancelJobEpisodes exTwoEpisodes 1 "T2").episodes)
    ∧ (mkEpisode 1 1 "complete" ∈ (cancelJobEpisodes exTwoEpisodes 1 "T2").episodes)
    ∧ cancelJobEpisodes exDone 1 "T3" = exDone := by
  refine ⟨(C2_termination_cascade exTwoEpisodes 1 (some "boom") "T2").1 _
            (by decide) (by decide) (by decide) (by decide),
          (C2_termination_cascade exTwoEpisodes 1 (some "boom") "T2").2.1 _
            (by decide) (Or.inl (by decide)),
          (C2_termination_cascade exDone 1 none "T3").2.2.2.2 (by decide)⟩

/-!
### C3 — the status machine is only enforced by `claim_job`
-/

/-- C3 counterexample: `cancel_job` on a job whose status is already the
terminal `'success'` still rewrites its status to `'canceled'`, so an
operation does change the status of a terminal job. -/
theorem C3_counterexample :
    exSuccess.jobs.map JobRow.status = [SqlValue.text "success"]
    ∧ (exceptJobs (cancelJob exSuccess 1 "T5")).map JobRow.status
        = [SqlValue.text "canceled"]
    ∧ (exceptJobs (updateJob exSuccess 1 [("status", SqlValue.text "queued")])).map
        JobRow.status = [SqlValue.text "queued"] := by decide

/-- C3 amended: only `claim_job` guards on the current status — it rewrites
exactly the queued rows of the id (to `'running'`) and carries every other
row over verbatim, so a claim never re-enters `'queued'` and never touches a
terminal job.  `finish_job`, `cancel_job` and `update_job` write the status
unconditionally: cancel turns even a `'success'` job into `'canceled'`, and
a generic update can set a terminal job back to `'queued'`. -/
theorem C3_status_machine (s : Store) (jobId : Nat) (now : String) :
    (∀ j ∈ s.jobs, j.status ≠ SqlValue.text "queued" →
        j ∈ (claimJob s jobId now).1.jobs)
    ∧ (∀ j ∈ (claimJob s jobId now).1.jobs,
        j ∈ s.jobs ∨ ∃ j0 ∈ s.jobs, j0.id = jobId
          ∧ j0.status = SqlValue.text "queued"
          ∧ j = ({ j0 with
                   status := SqlValue.text "running"
                   started_at := SqlValue.text now } : JobRow))
    ∧ (exceptJobs (cancelJob exSuccess 1 "T5")).map JobRow.status
        = [SqlValue.text "canceled"]
    ∧ (exceptJobs (updateJob exSuccess 1 [("status", SqlValue.text "queued")])).map
        JobRow.status = [SqlValue.text "queued"] := by
  refine ⟨?_, ?_, by decide, by decide⟩
  · intro j hj hst
    simp only [claimJob]
    exact mem_map_ite_neg
      (fun j : JobRow => j.id = jobId ∧ j.status = SqlValue.text "queued")
      (fun j : JobRow =>
        { j with status := SqlValue.text "running",
                 started_at := SqlValue.text now }) s.jobs j hj
      (fun hc => hst hc.2)
  · intro j hj
    simp only [claimJob] at hj
    obtain ⟨a, ha, h⟩ := mem_map_ite_elim _ _ _ _ hj
    rcases h with ⟨hp, rfl⟩ | ⟨_, rfl⟩
    · exact Or.inr ⟨a, ha, hp.1, hp.2, rfl⟩
    · exact Or.inl ha

/-- C3 witness: the amended per-row facts at the one-queued-job store — a
non-queued (terminal) row survives a claim untouched. -/
theorem C3_status_machine_witness :
    mkJob 1 "success" ∈ (claimJob exSuccess 1 "T1").1.jobs
    ∧ (exceptJobs (cancelJob exSuccess 1 "T5")).map JobRow.status
        = [SqlValue.text "canceled"] := by
  have h := C3_status_machine exSuccess 1 "T1"
  exact ⟨h.1 (mkJob 1 "success") (by decide) (by decide), h.2.2.1⟩

/-!
### C4 — what `finish(success=false)` writes
-/

/-- C4 counterexample: a failing finish does not leave `progress_percent`
and `stage` unchanged — the call passes `None` for both, so a job at
progress 50, stage `'download'` ends with both columns NULL. -/
theorem C4_counterexample :
    exMidFlight.jobs.map JobRow.progress_percent = [SqlValue.int 50]
    ∧ exMidFlight.jobs.map JobRow.stage = [SqlValue.text "download"]
    ∧ (exceptJobs (finishJob exMidFlight 1 false (some "boom") "T9")).map
        JobRow.progress_percent = [SqlValue.null]
    ∧ (exceptJobs (finishJob exMidFlight 1 false (some "boom") "T9")).map
        JobRow.stage = [SqlValue.null] := by decide

/-- C4 amended: `finish(id, success=false, msg)` sets status `'failed'`,
`finished_at = now` and the given error message, and clears
`progress_percent` and `stage` to NULL — the forcing to `100`/`'done'`
happens only on the success branch, but the failure branch still writes
both columns (with `None`) rather than leaving them unchanged. -/
theorem C4_finish_failure_fields (s : Store) (jobId : Nat) (msg : String)
    (now : String) :
    ∀ j ∈ s.jobs, j.id = jobId →
      ∃ s2, finishJob s jobId false (some msg) now = Except.ok s2
        ∧ ({ j with status := SqlValue.text "failed",
                    finished_at := SqlValue.text now,
                    error_message := SqlValue.text msg,
                    progress_percent := SqlValue.null,
                    stage := SqlValue.null } : JobRow) ∈ s2.jobs := by
  intro j hj hid
  refine ⟨_, rfl, ?_⟩
  show _ ∈ (s.jobs.map fun a =>
    if a.id = jobId then
      applyJobUpdates a
        [("status", SqlValue.text "failed"),
         ("finished_at", SqlValue.text now),
         ("error_message", optText (some msg)),
         ("progress_percent", SqlValue.null),
         ("stage", SqlValue.null)]
    else a)
  exact mem_map_ite_pos (fun a : JobRow => a.id = jobId)
    (fun a : JobRow => applyJobUpdates a
      [("status", SqlValue.text "failed"),
       ("finished_at", SqlValue.text now),
       ("error_message", optText (some msg)),
       ("progress_percent", SqlValue.null),
       ("stage", SqlValue.null)]) s.jobs j hj hid

/-- C4 witness: the amended row facts at the mid-flight store. -/
theorem C4_finish_failure_fields_witness :
    ∃ s2, finishJob exMidFlight 1 false (some "boom") "T9" = Except.ok s2
      ∧ ({ { mkJob 1 "running" with
             progress_percent := SqlValue.int 50
             stage := SqlValue.text "download" } with
           status := SqlValue.text "failed",
           finished_at := SqlValue.text "T9",
           error_message := SqlValue.text "boom",
           progress_percent := SqlValue.null,
           stage := SqlValue.null } : JobRow) ∈ s2.jobs :=
  C4_finish_failure_fields exMidFlight 1 "boom" "T9"
    ({ mkJob 1 "running" with
       progress_percent := SqlValue.int 50
       stage := SqlValue.text "download" }) (by decide) (by decide)

/-!
### C5 — the dead started_at guard
-/

/-- C5: the guard `if not updates.get("started_at")` inspects the updates
dict being built, never the stored row, so it is always true and a second
active-status update overwrites the episode's `started_at`: the episode that
entered active work at `"T1"` ends with `started_at = "T2"` after a
`'download_video'` update at `"T2"`. -/
theorem C5_started_at_overwritten :
    exStarted.episodes.map EpisodeRow.started_at = [SqlValue.text "T1"]
    ∧ (updateEpisode exStarted 1 (some "download_video") none none none none
        "T2").episodes.map EpisodeRow.started_at = [SqlValue.text "T2"] := by
  decide

/-!
### C6 — COMPLETE forcing vs. an explicit progress argument
-/

/-- C6 counterexample: updating an episode to `'complete'` while passing
`progress_percent = 50` stores 50, not the forced 100 — the explicit
argument is applied after the status side effect and wins. -/
theorem C6_counterexample :
    (updateEpisode exTwoEpisodes 2 (some "complete") (some 50) none none none
        "T4").episodes.map EpisodeRow.progress_percent
      = [SqlValue.int 0, SqlValue.int 50] := by
  decide

/-- C6 amended: a `'complete'` update sets `finished_at = now` and forces
`progress_percent = 100` only when no explicit `progress_percent` argument
is supplied; when one is, its value overrides the forced 100 in the same
call. -/
theorem C6_complete_forcing (s : Store) (episodeId : Nat) (now : String) :
    ∀ e ∈ s.episodes, e.id = episodeId →
      (({ e with status := SqlValue.text "complete"
                 finished_at := SqlValue.text now
                 progress_percent := SqlValue.int 100 } : EpisodeRow)
        ∈ (updateEpisode s episodeId (some "complete") none none none none
            now).episodes)
      ∧ ∀ p : Int,
        ({ e with status := SqlValue.text "complete"
                  finished_at := SqlValue.text now
                  progress_percent := SqlValue.int p } : EpisodeRow)
          ∈ (updateEpisode s episodeId (some "complete") (some p) none none none
              now).episodes := by
  intro e he hid
  constructor
  · show _ ∈ (s.episodes.map fun a =>
      if a.id = episodeId then
        applyEpisodeUpdates a
          (episodeUpdates (some "complete") none none none none now)
      else a)
    exact mem_map_ite_pos (fun a : EpisodeRow => a.id = episodeId)
      (fun a : EpisodeRow => applyEpisodeUpdates a
        (episodeUpdates (some "complete") none none none none now))
      s.episodes e he hid
  · intro p
    show _ ∈ (s.episodes.map fun a =>
      if a.id = episodeId then
        applyEpisodeUpdates a
          (episodeUpdates (some "complete") (some p) none none none now)
      else a)
    exact mem_map_ite_pos (fun a : EpisodeRow => a.id = episodeId)
      (fun a : EpisodeRow => applyEpisodeUpdates a
        (episodeUpdates (some "complete") (some p) none none none now))
      s.episodes e he hid

/-- C6 witness: the amended facts at the two-episode store. -/
theorem C6_complete_forcing_witness :
    (({ mkEpisode 2 1 "download_video" with
        status := SqlValue.text "complete"
        finished_at := SqlValue.text "T4"
        progress_percent := SqlValue.int 100 } : EpisodeRow)
      ∈ (updateEpisode exTwoEpisodes 2 (some "complete") none none none none
          "T4").episodes)
    ∧ (({ mkEpisode 2 1 "download_video" with
          status := SqlValue.text "complete"
          finished_at := SqlValue.text "T4"
          progress_percent := SqlValue.int 50 } : EpisodeRow)
        ∈ (updateEpisode exTwoEpisodes 2 (some "complete") (some 50) none none
            none "T4").episodes) := by
  have h := C6_complete_forcing exTwoEpisodes 2 "T4"
    (mkEpisode 2 1 "download_video") (by decide) (by decide)
  exact ⟨h.1, h.2 50⟩

/-!
### C8 — purge counts and the inert episode cascade
-/

/-- C8: on one running and one queued job (one episode each), the purge
returns `(deleted, skipped) = (1, 1)` and keeps the running job — but both
episode rows survive, including the one whose job was just deleted, because
no connection ever enables `PRAGMA foreign_keys`, so the schema's
`ON DELETE CASCADE` never fires and an orphaned episode remains. -/
theorem C8_purge_leaves_orphan :
    (deleteAllJobsExceptRunning exPurge).2 = (1, 1)
    ∧ (deleteAllJobsExceptRunning exPurge).1.jobs = [mkJob 1 "running"]
    ∧ (deleteAllJobsExceptRunning exPurge).1.episodes
        = [mkEpisode 1 1 "pending", mkEpisode 2 2 "pending"]
    ∧ (∀ j ∈ (deleteAllJobsExceptRunning exPurge).1.jobs, j.id ≠ 2)
    ∧ mkEpisode 2 2 "pending" ∈ (deleteAllJobsExceptRunning exPurge).1.episodes := by
  decide

/-!
### C10 — operations addressed to a missing id
-/

/-- A generic job update whose id matches no row and whose keys are all
allow-listed succeeds and returns the store unchanged. -/
theorem updateJob_valid_no_match (s : Store) (jobId : Nat)
    (fields : List (String × SqlValue))
    (hvalid : ∀ kv ∈ fields, VALID_COLUMNS.contains kv.1 = true)
    (hmiss : ∀ j ∈ s.jobs, j.id ≠ jobId) :
    updateJob s jobId fields = Except.ok s := by
  have hmap : (s.jobs.map fun j =>
      if j.id = jobId then applyJobUpdates j fields else j) = s.jobs :=
    map_ite_id (fun j : JobRow => j.id = jobId)
      (fun j : JobRow => applyJobUpdates j fields) s.jobs hmiss
  unfold updateJob
  by_cases hemp : fields.isEmpty
  · rw [if_pos hemp]
  · rw [if_neg hemp]
    have hany : (fields.any fun kv => !(VALID_COLUMNS.contains kv.1)) = false := by
      apply List.any_eq_false.mpr
      intro kv hkv
      simp only [hvalid kv hkv, Bool.not_true]
      exact fun h => Bool.noConfusion h
    simp only [hany, Bool.false_eq_true, if_false, hmap]

/-- Calling `update_progress` on a missing id: no error, store unchanged. -/
theorem updateProgress_no_match (s : Store) (jobId : Nat) (percent : Int)
    (stage : Option String) (text : Option String)
    (hmiss : ∀ j ∈ s.jobs, j.id ≠ jobId) :
    updateProgress s jobId percent stage text = Except.ok s := by
  unfold updateProgress
  apply updateJob_valid_no_match _ _ _ _ hmiss
  intro kv hkv
  have hmem : kv ∈ [("progress_percent", SqlValue.int percent),
                    ("stage", optText stage), ("progress_text", optText text)] := by
    revert hkv
    by_cases h1 : pyTruthyStr stage <;> by_cases h2 : pyTruthyStr text <;>
      simp [h1, h2] <;> tauto
  simp only [List.mem_cons, List.not_mem_nil, or_false] at hmem
  rcases hmem with rfl | rfl | rfl <;> rfl

/-- Calling `finish_job` on a missing job id: the job update matches nothing, and
only the failure branch goes on to run the episode cascade. -/
theorem finishJob_no_match (s : Store) (jobId : Nat) (success : Bool)
    (msg : Option String) (now : String)
    (hmiss : ∀ j ∈ s.jobs, j.id ≠ jobId) :
    finishJob s jobId success msg now =
      Except.ok (if success then s else cancelJobEpisodes s jobId now) := by
  have h := updateJob_valid_no_match s jobId
    [("status", SqlValue.text (if success then "success" else "failed")),
     ("finished_at", SqlValue.text now),
     ("error_message", optText msg),
     ("progress_percent", if success then SqlValue.int 100 else SqlValue.null),
     ("stage", if success then SqlValue.text "done" else SqlValue.null)]
    (by
      intro kv hkv
      simp only [List.mem_cons, List.not_mem_nil, or_false] at hkv
      rcases hkv with rfl | rfl | rfl | rfl | rfl <;> rfl)
    hmiss
  simp only [finishJob, h]

/-- Calling `cancel_job` on a missing job id: the job update matches nothing, the
episode cascade still runs. -/
theorem cancelJob_no_match (s : Store) (jobId : Nat) (now : String)
    (hmiss : ∀ j ∈ s.jobs, j.id ≠ jobId) :
    cancelJob s jobId now = Except.ok (cancelJobEpisodes s jobId now) := by
  have h := updateJob_valid_no_match s jobId
    [("status", SqlValue.text "canceled"), ("finished_at", SqlValue.text now)]
    (by
      intro kv hkv
      simp only [List.mem_cons, List.not_mem_nil, or_false] at hkv
      rcases hkv with rfl | rfl <;> rfl)
    hmiss
  simp only [cancelJob, h]

/-- The cascade of a job id no episode refers to is a no-op. -/
theorem cancelJobEpisodes_no_job (s : Store) (jobId : Nat) (now : String)
    (hmiss : ∀ e ∈ s.episodes, e.job_id ≠ jobId) :
    cancelJobEpisodes s jobId now = s := by
  have h2 : (s.episodes.map fun e =>
      if e.job_id = jobId ∧ e.status ≠ SqlValue.text "complete"
          ∧ e.status ≠ SqlValue.text "failed" then
        { e with status := SqlValue.text "failed"
                 error_message := SqlValue.text "Job was cancelled"
                 finished_at := SqlValue.text now }
      else e) = s.episodes :=
    map_ite_id
      (fun e : EpisodeRow => e.job_id = jobId ∧ e.status ≠ SqlValue.text "complete"
        ∧ e.status ≠ SqlValue.text "failed")
      (fun e : EpisodeRow =>
        { e with status := SqlValue.text "failed"
                 error_message := SqlValue.text "Job was cancelled"
                 finished_at := SqlValue.text now }) s.episodes
      (fun e he hc => hmiss e he hc.1)
  simp only [cancelJobEpisodes]
  rw [h2]

/-- Calling `update_episode` on a missing episode id: no row matches, the store is
returned unchanged whatever the arguments. -/
theorem updateEpisode_no_match (s : Store) (episodeId : Nat)
    (st : Option String) (pp : Option Int) (em : Option String)
    (sd : Option Jv) (lf : Option String) (now : String)
    (hmiss : ∀ e ∈ s.episodes, e.id ≠ episodeId) :
    updateEpisode s episodeId st pp em sd lf now = s := by
  have hmap : (s.episodes.map fun e =>
      if e.id = episodeId then
        applyEpisodeUpdates e (episodeUpdates st pp em sd lf now)
      else e) = s.episodes :=
    map_ite_id (fun e : EpisodeRow => e.id = episodeId)
      (fun e : EpisodeRow =>
        applyEpisodeUpdates e (episodeUpdates st pp em sd lf now))
      s.episodes hmiss
  unfold updateEpisode
  split
  · rfl
  · rw [hmap]

/-- C10 counterexample: with no job row at all but one orphaned episode
carrying `job_id = 1`, `cancel(1)` — an operation addressed to a missing
job id — still rewrites that episode to failed, so the store does change. -/
theorem C10_counterexample :
    getJob exOrphan 1 = none
    ∧ exOrphan.episodes.map EpisodeRow.status = [SqlValue.text "pending"]
    ∧ (exceptEpisodes (cancelJob exOrphan 1 "T6")).map EpisodeRow.status
        = [SqlValue.text "failed"] := by
  decide

/-- C10 amended: every mutating operation addressed to a missing id
completes without error, and the job-table write is a zero-row no-op; the
store is entirely unchanged for the generic update, `update_progress`,
`finish(success=true)` and episode updates — but `finish(success=false)`
and `cancel` still run the episode cascade for the missing id, which
rewrites any episodes that carry that `job_id` (such rows exist exactly
because no foreign-key check prevents them); only when no episode carries
the id are those two also exact no-ops. -/
theorem C10_missing_id (s : Store) (jobId : Nat) (now : String)
    (hmiss : ∀ j ∈ s.jobs, j.id ≠ jobId) :
    (∀ fields, (∀ kv ∈ fields, VALID_COLUMNS.contains kv.1 = true) →
        updateJob s jobId fields = Except.ok s)
    ∧ (∀ percent stage text,
        updateProgress s jobId percent stage text = Except.ok s)
    ∧ (∀ msg, finishJob s jobId true msg now = Except.ok s)
    ∧ (∀ msg, finishJob s jobId false msg now
        = Except.ok (cancelJobEpisodes s jobId now))
    ∧ cancelJob s jobId now = Except.ok (cancelJobEpisodes s jobId now)
    ∧ ((∀ e ∈ s.episodes, e.job_id ≠ jobId) →
        (∀ msg, finishJob s jobId false msg now = Except.ok s)
          ∧ cancelJob s jobId now = Except.ok s)
    ∧ (∀ episodeId, (∀ e ∈ s.episodes, e.id ≠ episodeId) →
        ∀ st pp em sd lf, updateEpisode s episodeId st pp em sd lf now = s) := by
  refine ⟨fun fields hvalid => updateJob_valid_no_match s jobId fields hvalid hmiss,
          fun percent stage text => updateProgress_no_match s jobId percent stage text hmiss,
          fun msg => by simpa using finishJob_no_match s jobId true msg now hmiss,
          fun msg => by simpa using finishJob_no_match s jobId false msg now hmiss,
          cancelJob_no_match s jobId now hmiss,
          fun hnoe => ?_,
          fun episodeId hne st pp em sd lf =>
            updateEpisode_no_match s episodeId st pp em sd lf now hne⟩
  have hcasc := cancelJobEpisodes_no_job s jobId now hnoe
  exact ⟨fun msg => by simpa [hcasc] using finishJob_no_match s jobId false msg now hmiss,
         by simpa [hcasc] using cancelJob_no_match s jobId now hmiss⟩

/-- C10 witness: the amended facts on the orphaned-episode store. -/
theorem C10_missing_id_witness :
    finishJob exOrphan 1 true none "T6" = Except.ok exOrphan
    ∧ updateProgress exOrphan 1 42 none none = Except.ok exOrphan
    ∧ updateEpisode exOrphan 99 (some "complete") none none none none "T6"
        = exOrphan := by
  have h := C10_missing_id exOrphan 1 "T6" (by decide)
  exact ⟨h.2.2.1 none, h.2.1 42 none none,
         h.2.2.2.2.2.2 99 (by decide) (some "complete") none none none none⟩

/-!
### C7 — stage_data round trip
-/

theorem parseStr_escString (s rest : List Char) :
    parseStr (escString s ++ '"' :: rest) = some (s, rest) := by
  induction s with
  | nil =>
    show parseStr ('"' :: rest) = some ([], rest)
    rw [parseStr.eq_def]
    simp
  | cons c cs ih =>
    by_cases hq : c = '"' ∨ c = '\\'
    · have h3 : escString (c :: cs) ++ '"' :: rest
          = '\\' :: c :: (escString cs ++ '"' :: rest) := by
        simp [escString, escChar, hq]
      rw [h3, parseStr.eq_def]
      simp [hq, ih]
    · have h1 : ¬ c = '\\' := fun h => hq (Or.inr h)
      have h2 : ¬ c = '"' := fun h => hq (Or.inl h)
      have h3 : escString (c :: cs) ++ '"' :: rest
          = c :: (escString cs ++ '"' :: rest) := by
        simp [escString, escChar, hq]
      rw [h3, parseStr.eq_def]
      simp [h1, h2, ih]

theorem digitCh_isDigit : ∀ d < 10, (digitCh d).isDigit = true := by decide

theorem digitCh_toNat : ∀ d < 10, (digitCh d).toNat - 48 = d := by decide

theorem natChars_ne_nil (n : Nat) : natChars n ≠ [] := by
  rw [natChars.eq_def]
  split
  · exact List.cons_ne_nil _ _
  · exact List.append_ne_nil_of_right_ne_nil _ (List.cons_ne_nil _ _)

theorem natChars_digits (n : Nat) : ∀ c ∈ natChars n, c.isDigit = true := by
  induction n using Nat.strong_induction_on with
  | _ n ih =>
    rw [natChars.eq_def]
    split
    · intro c hc
      rw [List.mem_singleton] at hc
      subst hc
      exact digitCh_isDigit n (by omega)
    · intro c hc
      rcases List.mem_append.mp hc with h | h
      · exact ih (n / 10) (Nat.div_lt_self (by omega) (by omega)) c h
      · rw [List.mem_singleton] at h
        subst h
        exact digitCh_isDigit (n % 10) (Nat.mod_lt _ (by omega))

theorem digitsVal_append_single (ds : List Char) (c : Char) :
    digitsVal (ds ++ [c]) = digitsVal ds * 10 + (c.toNat - 48) := by
  simp [digitsVal, List.foldl_append]

theorem digitsVal_natChars (n : Nat) : digitsVal (natChars n) = n := by
  induction n using Nat.strong_induction_on with
  | _ n ih =>
    rw [natChars.eq_def]
    split
    · rename_i h
      interval_cases n <;> decide
    · rename_i h
      rw [digitsVal_append_single, ih (n / 10) (Nat.div_lt_self (by omega) (by omega)),
        digitCh_toNat (n % 10) (Nat.mod_lt _ (by omega))]
      omega

theorem takeDigits_append (ds rest : List Char) (hds : ∀ c ∈ ds, c.isDigit = true)
    (hrest : noDig rest) : takeDigits (ds ++ rest) = (ds, rest) := by
  induction ds with
  | nil =>
    cases rest with
    | nil => rfl
    | cons c cs =>
      simp only [noDig] at hrest
      simp [takeDigits, hrest]
  | cons d ds ih =>
    have hd : d.isDigit = true := hds d (List.mem_cons_self d ds)
    have ih2 := ih (fun c hc => hds c (List.mem_cons_of_mem d hc))
    simp [takeDigits, hd, ih2]

theorem parseNat_natChars (n : Nat) (rest : List Char) (hrest : noDig rest) :
    parseNat (natChars n ++ rest) = some (n, rest) := by
  unfold parseNat
  rw [takeDigits_append _ _ (natChars_digits n) hrest]
  have hne : (natChars n).isEmpty = false := by
    cases h : natChars n with
    | nil => exact absurd h (natChars_ne_nil n)
    | cons a l => rfl
  simp [hne, digitsVal_natChars]

theorem jsize_pos (v : Jv) : 1 ≤ jsize v := by
  cases v <;> simp [jsize]

theorem digit_head_facts (c : Char) (h : c.isDigit = true) :
    c ≠ 'n' ∧ c ≠ 't' ∧ c ≠ 'f' ∧ c ≠ '"' ∧ c ≠ '[' ∧ c ≠ '\x7b' ∧ c ≠ '-' := by
  refine ⟨?_, ?_, ?_, ?_, ?_, ?_, ?_⟩ <;> (rintro rfl; revert h; decide)

theorem jdump_head (v : Jv) :
    ∃ c cs, jdump v = c :: cs ∧ c ≠ ']' ∧ c ≠ '\x7d' := by
  cases v with
  | jnull => exact ⟨'n', ['u', 'l', 'l'], rfl, by decide, by decide⟩
  | jbool b =>
    cases b with
    | false => exact ⟨'f', ['a', 'l', 's', 'e'], rfl, by decide, by decide⟩
    | true => exact ⟨'t', ['r', 'u', 'e'], rfl, by decide, by decide⟩
  | jint n =>
    by_cases hn : n < 0
    · refine ⟨'-', natChars (-n).toNat, ?_, by decide, by decide⟩
      simp [jdump, intChars, hn]
    · cases hcc : natChars n.toNat with
      | nil => exact absurd hcc (natChars_ne_nil _)
      | cons c cs =>
        have hd : c.isDigit = true :=
          natChars_digits _ c (by rw [hcc]; exact List.mem_cons_self _ _)
        refine ⟨c, cs, ?_, ?_, ?_⟩
        · simp [jdump, intChars, hn, hcc]
        · rintro rfl; revert hd; decide
        · rintro rfl; revert hd; decide
  | jstr s => exact ⟨'"', escString s ++ ['"'], rfl, by decide, by decide⟩
  | jarr xs => exact ⟨'[', jdumpArr xs ++ [']'], rfl, by decide, by decide⟩
  | jobj kvs => exact ⟨'\x7b', jdumpObj kvs ++ ['\x7d'], rfl, by decide, by decide⟩

theorem parse_jdump_aux (fuel : Nat) :
    (∀ v rest, jsize v ≤ fuel → noDig rest →
      parseVal fuel (jdump v ++ rest) = some (v, rest))
    ∧ (∀ v tl rest, jsize v + jsizeA tl + 1 ≤ fuel → noDig rest →
      parseElems fuel (jdumpArr (JArr.cons v tl) ++ ']' :: rest)
        = some (JArr.cons v tl, rest))
    ∧ (∀ k v tl rest, jsize v + jsizeO tl + 1 ≤ fuel → noDig rest →
      parseEntries fuel (jdumpObj (JObj.cons k v tl) ++ '\x7d' :: rest)
        = some (JObj.cons k v tl, rest)) := by
  induction fuel with
  | zero =>
    refine ⟨fun v rest hs _ => absurd hs ?_, fun v tl rest hs _ => absurd hs (by omega),
            fun k v tl rest hs _ => absurd hs (by omega)⟩
    have := jsize_pos v
    omega
  | succ f ih =>
    obtain ⟨ihV, ihA, ihO⟩ := ih
    refine ⟨?_, ?_, ?_⟩
    · intro v rest hs hrest
      cases v with
      | jnull =>
        show parseVal (f + 1) ('n' :: 'u' :: 'l' :: 'l' :: rest) = some (Jv.jnull, rest)
        simp [parseVal, dropLit]
      | jbool b =>
        cases b with
        | true =>
          show parseVal (f + 1) ('t' :: 'r' :: 'u' :: 'e' :: rest) = some (Jv.jbool true, rest)
          simp [parseVal, dropLit]
        | false =>
          show parseVal (f + 1) ('f' :: 'a' :: 'l' :: 's' :: 'e' :: rest) = some (Jv.jbool false, rest)
          simp [parseVal, dropLit]
      | jstr s =>
        have h1 : jdump (Jv.jstr s) ++ rest = '"' :: (escString s ++ '"' :: rest) := by
          simp [jdump]
        rw [h1]
        simp [parseVal, parseStr_escString s rest]
      | jint n =>
        by_cases hn : n < 0
        · have h1 : jdump (Jv.jint n) ++ rest = '-' :: (natChars (-n).toNat ++ rest) := by
            simp [jdump, intChars, hn]
          rw [h1]
          have h2 := parseNat_natChars (-n).toNat rest hrest
          simp only [parseVal, h2]
          simp
          omega
        · cases hcc : natChars n.toNat with
          | nil => exact absurd hcc (natChars_ne_nil _)
          | cons c cs =>
            have hd : c.isDigit = true :=
              natChars_digits _ c (by rw [hcc]; exact List.mem_cons_self _ _)
            obtain ⟨hc1, hc2, hc3, hc4, hc5, hc6, hc7⟩ := digit_head_facts c hd
            have h1 : jdump (Jv.jint n) ++ rest = c :: (cs ++ rest) := by
              simp [jdump, intChars, hn, hcc]
            have h2 : parseNat (c :: (cs ++ rest)) = some (n.toNat, rest) := by
              rw [show c :: (cs ++ rest) = (c :: cs) ++ rest from rfl, ← hcc]
              exact parseNat_natChars n.toNat rest hrest
            rw [h1]
            simp only [parseVal, hc1, hc2, hc3, hc4, hc5, hc6, hc7, hd, if_false, if_true, h2]
            simp
            omega
      | jarr xs =>
        cases xs with
        | nil =>
          have h1 : jdump (Jv.jarr JArr.nil) ++ rest = '[' :: ']' :: rest := by
            simp [jdump, jdumpArr]
          rw [h1]
          simp [parseVal]
        | cons v tl =>
          obtain ⟨c, cs, hcc, hne1, hne2⟩ := jdump_head v
          obtain ⟨ds, hds⟩ : ∃ ds, jdumpArr (JArr.cons v tl) = c :: ds := by
            cases tl with
            | nil => exact ⟨cs, by simp [jdumpArr, hcc]⟩
            | cons w tl2 =>
              exact ⟨cs ++ ',' :: ' ' :: jdumpArr (JArr.cons w tl2),
                by simp [jdumpArr, hcc]⟩
          have h1 : jdump (Jv.jarr (JArr.cons v tl)) ++ rest
              = '[' :: c :: (ds ++ ']' :: rest) := by
            simp [jdump, hds]
          have h2 : parseElems f (c :: (ds ++ ']' :: rest))
              = some (JArr.cons v tl, rest) := by
            rw [show c :: (ds ++ ']' :: rest) = (c :: ds) ++ ']' :: rest from rfl, ← hds]
            refine ihA v tl rest ?_ hrest
            simp only [jsize, jsizeA] at hs
            omega
          rw [h1]
          simp [parseVal, hne1, h2]
      | jobj kvs =>
        cases kvs with
        | nil =>
          have h1 : jdump (Jv.jobj JObj.nil) ++ rest = '\x7b' :: '\x7d' :: rest := by
            simp [jdump, jdumpObj]
          rw [h1]
          simp [parseVal]
        | cons k v tl =>
          obtain ⟨ds, hds⟩ : ∃ ds, jdumpObj (JObj.cons k v tl) = '"' :: ds := by
            cases tl with
            | nil => exact ⟨escString k ++ '"' :: ':' :: ' ' :: jdump v, by simp [jdumpObj]⟩
            | cons k2 v2 tl2 =>
              exact ⟨(escString k ++ ('"' :: ':' :: ' ' :: jdump v))
                  ++ ',' :: ' ' :: jdumpObj (JObj.cons k2 v2 tl2),
                by simp [jdumpObj]⟩
          have h1 : jdump (Jv.jobj (JObj.cons k v tl)) ++ rest
              = '\x7b' :: '"' :: (ds ++ '\x7d' :: rest) := by
            simp [jdump, hds]
          have h2 : parseEntries f ('"' :: (ds ++ '\x7d' :: rest))
              = some (JObj.cons k v tl, rest) := by
            rw [show '"' :: (ds ++ '\x7d' :: rest) = ('"' :: ds) ++ '\x7d' :: rest from rfl,
              ← hds]
            refine ihO k v tl rest ?_ hrest
            simp only [jsize, jsizeO] at hs
            omega
          rw [h1]
          simp [parseVal, h2]
    · intro v tl rest hs hrest
      cases tl with
      | nil =>
        have h1 : jdumpArr (JArr.cons v JArr.nil) ++ ']' :: rest
            = jdump v ++ ']' :: rest := by
          simp [jdumpArr]
        have h2 := ihV v (']' :: rest)
          (by simp only [jsizeA] at hs; omega) (by simp [noDig])
        rw [h1]
        simp [parseElems, h2]
      | cons w tl2 =>
        have h1 : jdumpArr (JArr.cons v (JArr.cons w tl2)) ++ ']' :: rest
            = jdump v ++ (',' :: ' ' :: (jdumpArr (JArr.cons w tl2) ++ ']' :: rest)) := by
          simp [jdumpArr]
        have h2 := ihV v (',' :: ' ' :: (jdumpArr (JArr.cons w tl2) ++ ']' :: rest))
          (by simp only [jsizeA] at hs; omega) (by simp [noDig])
        have h3 := ihA w tl2 rest
          (by simp only [jsizeA] at hs; have := jsize_pos v; omega) hrest
        rw [h1]
        simp [parseElems, h2, h3]
    · intro k v tl rest hs hrest
      cases tl with
      | nil =>
        have h1 : jdumpObj (JObj.cons k v JObj.nil) ++ '\x7d' :: rest
            = '"' :: (escString k ++ '"' :: ':' :: ' ' :: (jdump v ++ '\x7d' :: rest)) := by
          simp [jdumpObj]
        have hstr := parseStr_escString k (':' :: ' ' :: (jdump v ++ '\x7d' :: rest))
        have h2 := ihV v ('\x7d' :: rest)
          (by simp only [jsizeO] at hs; omega) (by simp [noDig])
        rw [h1]
        simp [parseEntries, hstr, h2]
      | cons k2 v2 tl2 =>
        have h1 : jdumpObj (JObj.cons k v (JObj.cons k2 v2 tl2)) ++ '\x7d' :: rest
            = '"' :: (escString k ++ '"' :: ':' :: ' ' ::
                (jdump v ++ ',' :: ' ' ::
                  (jdumpObj (JObj.cons k2 v2 tl2) ++ '\x7d' :: rest))) := by
          simp [jdumpObj]
        have hstr := parseStr_escString k (':' :: ' ' ::
          (jdump v ++ ',' :: ' ' :: (jdumpObj (JObj.cons k2 v2 tl2) ++ '\x7d' :: rest)))
        have h2 := ihV v (',' :: ' ' :: (jdumpObj (JObj.cons k2 v2 tl2) ++ '\x7d' :: rest))
          (by simp only [jsizeO] at hs; omega) (by simp [noDig])
        have h3 := ihO k2 v2 tl2 rest
          (by simp only [jsizeO] at hs; have := jsize_pos v; omega) hrest
        rw [h1]
        simp [parseEntries, hstr, h2, h3]

mutual
theorem jsize_le_len : ∀ v : Jv, jsize v ≤ (jdump v).length
  | Jv.jnull => by simp [jsize, jdump]
  | Jv.jbool true => by simp [jsize, jdump]
  | Jv.jbool false => by simp [jsize, jdump]
  | Jv.jint n => by
      have h : intChars n ≠ [] := by
        unfold intChars
        split
        · exact List.cons_ne_nil _ _
        · exact natChars_ne_nil _
      have h2 := List.length_pos.mpr h
      show jsize (Jv.jint n) ≤ (intChars n).length
      simp only [jsize]
      omega
  | Jv.jstr s => by simp [jsize, jdump]
  | Jv.jarr xs => by
      have h := jsizeA_le_len xs
      simp only [jsize, jdump, List.length_cons, List.length_append,
        List.length_singleton]
      omega
  | Jv.jobj kvs => by
      have h := jsizeO_le_len kvs
      simp only [jsize, jdump, List.length_cons, List.length_append,
        List.length_singleton]
      omega

theorem jsizeA_le_len : ∀ xs : JArr, jsizeA xs ≤ (jdumpArr xs).length + 1
  | JArr.nil => by simp [jsizeA]
  | JArr.cons v JArr.nil => by
      have h := jsize_le_len v
      show jsize v + jsizeA JArr.nil + 1 ≤ (jdump v).length + 1
      simp only [jsizeA]
      omega
  | JArr.cons v (JArr.cons w tl) => by
      have h1 := jsize_le_len v
      have h2 := jsizeA_le_len (JArr.cons w tl)
      show jsize v + jsizeA (JArr.cons w tl) + 1
          ≤ (jdump v ++ ',' :: ' ' :: jdumpArr (JArr.cons w tl)).length + 1
      simp only [List.length_append, List.length_cons]
      omega

theorem jsizeO_le_len : ∀ kvs : JObj, jsizeO kvs ≤ (jdumpObj kvs).length + 1
  | JObj.nil => by simp [jsizeO]
  | JObj.cons k v JObj.nil => by
      have h := jsize_le_len v
      show jsize v + jsizeO JObj.nil + 1
          ≤ ('"' :: (escString k ++ ('"' :: ':' :: ' ' :: jdump v))).length + 1
      simp only [jsizeO, List.length_cons, List.length_append]
      omega
  | JObj.cons k v (JObj.cons k2 v2 tl) => by
      have h1 := jsize_le_len v
      have h2 := jsizeO_le_len (JObj.cons k2 v2 tl)
      show jsize v + jsizeO (JObj.cons k2 v2 tl) + 1
          ≤ (('"' :: (escString k ++ ('"' :: ':' :: ' ' :: jdump v)))
              ++ ',' :: ' ' :: jdumpObj (JObj.cons k2 v2 tl)).length + 1
      simp only [List.length_append, List.length_cons]
      omega
end

theorem jloads_jdumpStr (v : Jv) : jloads (jdumpStr v) = some v := by
  have h := (parse_jdump_aux ((jdump v).length + 1)).1 v []
    (le_trans (jsize_le_len v) (by omega)) trivial
  rw [List.append_nil] at h
  show (match parseVal ((jdump v).length + 1) (jdump v) with
    | some (w, []) => some w
    | _ => none) = some v
  rw [h]

theorem find?_append_left_none {α : Type} (p : α → Bool) (l1 l2 : List α)
    (h : ∀ a ∈ l1, p a = false) : (l1 ++ l2).find? p = l2.find? p := by
  induction l1 with
  | nil => rfl
  | cons a t ih =>
    simp only [List.cons_append, List.find?, h a (List.mem_cons_self a t)]
    exact ih (fun b hb => h b (List.mem_cons_of_mem a hb))

theorem C7_stage_data_roundtrip (s : Store) (jobId : Nat) (n : Int)
    (title : String) (m : Jv) (now : String) (hfresh : freshEpisodeIds s) :
    ∃ ep, getEpisode
        (updateEpisode (createEpisode s jobId n title).1
          (createEpisode s jobId n title).2 none none none (some m) none now)
        (createEpisode s jobId n title).2 = some ep
      ∧ ep.stage_data = SqlValue.text (jdumpStr m)
      ∧ sqlDecodeJson ep.stage_data = some m := by
  refine ⟨{ id := s.nextEpisodeId
            job_id := jobId
            episode_number := n
            title := title
            status := SqlValue.text "pending"
            progress_percent := SqlValue.int 0
            stage_data := SqlValue.text (jdumpStr m)
            error_message := SqlValue.null
            started_at := SqlValue.null
            finished_at := SqlValue.null
            log_file := SqlValue.null }, ?_, rfl, jloads_jdumpStr m⟩
  show ((s.episodes ++ [({ id := s.nextEpisodeId
                           job_id := jobId
                           episode_number := n
                           title := title
                           status := SqlValue.text "pending"
                           progress_percent := SqlValue.int 0
                           stage_data := SqlValue.null
                           error_message := SqlValue.null
                           started_at := SqlValue.null
                           finished_at := SqlValue.null
                           log_file := SqlValue.null } : EpisodeRow)]).map (fun e : EpisodeRow =>
      if e.id = s.nextEpisodeId then
        applyEpisodeUpdates e (episodeUpdates none none none (some m) none now)
      else e)).find? (fun e : EpisodeRow => e.id = s.nextEpisodeId)
    = some ({ id := s.nextEpisodeId
              job_id := jobId
              episode_number := n
              title := title
              status := SqlValue.text "pending"
              progress_percent := SqlValue.int 0
              stage_data := SqlValue.text (jdumpStr m)
              error_message := SqlValue.null
              started_at := SqlValue.null
              finished_at := SqlValue.null
              log_file := SqlValue.null } : EpisodeRow)
  rw [List.map_append]
  have hmap : (s.episodes.map fun e : EpisodeRow =>
      if e.id = s.nextEpisodeId then
        applyEpisodeUpdates e (episodeUpdates none none none (some m) none now)
      else e) = s.episodes :=
    map_ite_id (fun e : EpisodeRow => e.id = s.nextEpisodeId)
      (fun e : EpisodeRow =>
        applyEpisodeUpdates e (episodeUpdates none none none (some m) none now))
      s.episodes (fun e he => Nat.ne_of_lt (hfresh e he))
  rw [hmap]
  rw [find?_append_left_none _ _ _
    (fun e he => by simp [Nat.ne_of_lt (hfresh e he)])]
  simp [List.find?, applyEpisodeUpdates, episodeUpdates, setEpisodeField]

/-- C7 witness: the round trip at the spec's example map on the one-job
store. -/
theorem C7_stage_data_roundtrip_witness :
    ∃ ep, getEpisode
        (updateEpisode (createEpisode exQueued 1 1 "ep").1
          (createEpisode exQueued 1 1 "ep").2 none none none (some exMapA) none
          "T7")
        (createEpisode exQueued 1 1 "ep").2 = some ep
      ∧ ep.stage_data = SqlValue.text (jdumpStr exMapA)
      ∧ sqlDecodeJson ep.stage_data = some exMapA :=
  C7_stage_data_roundtrip exQueued 1 1 "ep" exMapA "T7" (by decide)
